import Mathlib

/-!
Shallow embedding of the cached-request engine in
`crates/puffin-client/src/cached_client.rs`.

The engine is modelled as a pure state machine. External collaborators are
abstracted exactly where the source delegates to them:

* the `http_cache_semantics::CachePolicy` freshness engine becomes an abstract
  state type `σ` together with a `PolicyOps σ` dictionary providing
  `is_stale`, `before_request`, `after_response`, `is_storable` and the
  `CachePolicy::new` constructor;
* the `reqwest_middleware` transport becomes a function
  `execute : Request → Option Response` (`none` models a middleware or
  transport failure);
* the `rmp_serde` envelope codec becomes an abstract pair
  `envEncode` / `envDecode` (`none` models an encode or decode failure);
* `SystemTime::now()` becomes a fixed reference instant `now`.

Side effects (network calls, the transform callback, file writes and
deletions, warning logs) are recorded in an explicit event trace so that
frame and temporal properties can be stated about one `fetch` invocation.
-/

namespace Puffin

/-- Raw bytes, as stored in the envelope and HTTP bodies. -/
abbrev Bytes := List Nat

/-- A wall-clock reference instant, standing for `std::time::SystemTime`. -/
abbrev Time := Nat

/-- An HTTP header map. `http::HeaderMap` normalises names to lower case; we
assume lower-case names throughout. `insert` replaces any previous value for
the name, matching `HeaderMap::insert`. -/
abbrev Headers := List (String × String)

/-- Header insertion with replace semantics, matching `HeaderMap::insert`. -/
def headersInsert (hs : Headers) (name v : String) : Headers :=
  (name, v) :: hs.filter (fun p => p.1 ≠ name)

/-- Look up the value stored for a header name. -/
def headersGet (hs : Headers) (name : String) : Option String :=
  (hs.find? (fun p => p.1 == name)).map Prod.snd

/-- Insert every header of `new` into `hs`, matching the
`for header in &request.headers` insertion loops of `send_cached`. -/
def headersInsertAll (hs : Headers) (new : Headers) : Headers :=
  new.foldl (fun acc p => headersInsert acc p.1 p.2) hs

/-- An outbound HTTP request description (`reqwest::Request` and its converted
`http::Request` counterpart; bodies are empty, so the conversion performed by
`http::Request::try_from(req.try_clone()...)` is the identity on this record). -/
structure Request where
  method : String
  url : String
  headers : Headers
deriving DecidableEq

/-- An inbound HTTP response: status, headers and the body consumed by the
transform callback. -/
structure Response where
  status : Nat
  headers : Headers
  body : Bytes
deriving DecidableEq

/-- The caller-facing cache-control mode (`CacheControl` in the source):
`none` respects the response headers, `mustRevalidate` injects
`max-age=0, must-revalidate`. -/
inductive CacheControl where
  | none
  | mustRevalidate
deriving DecidableEq

/-- The result of `reqwest::Response::error_for_status`: client errors
(400..=499) and server errors (500..=599) are turned into request errors. -/
def errorForStatus (status : Nat) : Bool :=
  400 ≤ status && status ≤ 599

/-- The engine error kinds used by the cached client (`ErrorKind` variants
reachable from `cached_client.rs`). -/
inductive ErrorKind where
  | decode
  | encode
  | cacheWrite
  | requestError
  | requestMiddlewareError
deriving DecidableEq

/-- The crate error type; only the kind matters for the model. -/
abbrev Error := ErrorKind

/-- Either a cached client error or a user-specified error from the callback
(`CachedClientError` in the source). -/
inductive CachedClientError (E : Type) where
  | client (e : Error)
  | callback (e : E)
deriving DecidableEq

/-- Verdict of `CachePolicy::before_request`: fresh, or stale together with
the conditional headers to merge into the real request and a flag telling
whether the cached request still matches the current one. -/
inductive BeforeRequest where
  | fresh
  | stale (headers : Headers) (reqMatches : Bool)

/-- Verdict of `CachePolicy::after_response`, carrying the refreshed policy
state (the response parts it also returns are unused by the source). -/
inductive AfterResponse (σ : Type) where
  | notModified (policy : σ)
  | modified (policy : σ)

/-- The freshness and validation engine interface. The source delegates to
the external `http_cache_semantics` crate; the policy is an abstract state `σ`
with these operations. -/
structure PolicyOps (σ : Type) where
  is_stale : σ → Time → Bool
  before_request : σ → Request → Time → BeforeRequest
  after_response : σ → Request → Response → Time → AfterResponse σ
  is_storable : σ → Bool
  policyNew : Request → Response → σ

/-- The persisted envelope (`DataWithCachePolicy`): cached bytes, the
immutability flag and the serialized freshness-engine state. -/
structure DataWithCachePolicy (σ : Type) where
  data : Bytes
  immutable : Bool
  cache_policy : σ

/-- The three-variant outcome of one cache lookup cycle (`CachedResponse`). -/
inductive CachedResponse (σ : Type) where
  | freshCache (data : Bytes)
  | notModified (dwcp : DataWithCachePolicy σ)
  | modifiedOrNew (res : Response) (cache_policy : Option σ)

/-- Observable effects of one fetch invocation, recorded in order. -/
inductive Event where
  | networkCall (req : Request)
  | callbackInvoked
  | fileWrite (bytes : Bytes)
  | fileDelete
  | warning
  | beforeRequestConsulted (req : Request)
deriving DecidableEq

/-- The ambient dependencies of one fetch invocation. -/
structure Ctx (σ : Type) where
  ops : PolicyOps σ
  execute : Request → Option Response
  now : Time
  envEncode : DataWithCachePolicy σ → Option Bytes
  envDecode : Bytes → Option (DataWithCachePolicy σ)

/-- Application of the cache-control mode to the converted request, matching
the `match cache_control` block of `send_cached` (the header is inserted into
`converted_req` only). -/
def applyCacheControl (cc : CacheControl) (r : Request) : Request :=
  match cc with
  | .none => r
  | .mustRevalidate =>
    { r with headers := headersInsert r.headers "cache-control" "max-age=0, must-revalidate" }

/-- Merge of the conditional revalidation headers into a request, matching
the `for header in &request.headers` loop of `send_cached`. -/
def mergeHeaders (r : Request) (hs : Headers) : Request :=
  { r with headers := headersInsertAll r.headers hs }

/-- Split of a list of characters at commas. -/
def splitCommaAux : List Char → List Char → List (List Char)
  | [], acc => [acc.reverse]
  | c :: cs, acc =>
    if c = ',' then acc.reverse :: splitCommaAux cs [] else splitCommaAux cs (c :: acc)

/-- Removal of leading and trailing spaces. -/
def trimSpaces (l : List Char) : List Char :=
  ((l.dropWhile (fun c => c = ' ')).reverse.dropWhile (fun c => c = ' ')).reverse

/-- Split of a cache-control header value into its trimmed directives. -/
def splitDirectives (s : String) : List String :=
  (splitCommaAux s.data []).map (fun l => String.mk (trimSpaces l))

/-- Modelled from the spec: `CacheHeaders::from_response(...).is_immutable()`
lives in `crates/puffin-client/src/cache_headers.rs`, which is not among the
provided sources. Per the spec, the immutable flag is true iff the response
carried a cache-control `immutable` directive. -/
def isImmutableResponse (hs : Headers) : Bool :=
  ((hs.filter (fun p => p.1 == "cache-control")).map Prod.snd).any
    (fun v => (splitDirectives v).contains "immutable")

/-- Result of the request state machine: the `CachedResponse` outcome (or an
engine error) together with the emitted events. -/
structure SendOutcome (σ : Type) where
  response : Except Error (CachedResponse σ)
  events : List Event

/-- The unconditional fresh fetch (`CachedClient::fresh_request`): one network
call, status check, fresh policy from the request/response pair, storability
gating of the returned policy. -/
def fresh_request {σ : Type} (ctx : Ctx σ) (req : Request) (converted_req : Request) :
    SendOutcome σ :=
  match ctx.execute req with
  | .none => { response := .error .requestMiddlewareError, events := [.networkCall req] }
  | .some res =>
    if errorForStatus res.status then
      { response := .error .requestError, events := [.networkCall req] }
    else
      let cache_policy := ctx.ops.policyNew converted_req res
      { response := .ok (.modifiedOrNew res
          (if ctx.ops.is_storable cache_policy then some cache_policy else none)),
        events := [.networkCall req] }

/-- The request state machine (`CachedClient::send_cached`): immutable fast
path, cache-control application, `before_request` consultation, revalidation
exchange and `after_response` interpretation. -/
def send_cached {σ : Type} (ctx : Ctx σ) (req : Request) (cache_control : CacheControl)
    (cached : Option (DataWithCachePolicy σ)) : SendOutcome σ :=
  match cached with
  | .some cached =>
    if cached.immutable && !(ctx.ops.is_stale cached.cache_policy ctx.now) then
      { response := .ok (.freshCache cached.data), events := [] }
    else
      let converted_req := applyCacheControl cache_control req
      match ctx.ops.before_request cached.cache_policy converted_req ctx.now with
      | .fresh =>
        { response := .ok (.freshCache cached.data),
          events := [.beforeRequestConsulted converted_req] }
      | .stale newHeaders reqMatches =>
        if reqMatches then
          let req2 := mergeHeaders req newHeaders
          let converted_req2 := mergeHeaders converted_req newHeaders
          match ctx.execute req2 with
          | .none =>
            { response := .error .requestMiddlewareError,
              events := [.beforeRequestConsulted converted_req, .networkCall req2] }
          | .some res =>
            if errorForStatus res.status then
              { response := .error .requestError,
                events := [.beforeRequestConsulted converted_req, .networkCall req2] }
            else
              match ctx.ops.after_response cached.cache_policy converted_req2 res ctx.now with
              | .notModified new_policy =>
                { response := .ok (.notModified
                    { data := cached.data,
                      immutable := isImmutableResponse res.headers,
                      cache_policy := new_policy }),
                  events := [.beforeRequestConsulted converted_req, .networkCall req2] }
              | .modified new_policy =>
                { response := .ok (.modifiedOrNew res
                    (if ctx.ops.is_storable new_policy then some new_policy else none)),
                  events := [.beforeRequestConsulted converted_req, .networkCall req2] }
        else
          let out := fresh_request ctx req converted_req
          { response := out.response,
            events := .beforeRequestConsulted converted_req :: .warning :: out.events }
  | .none => fresh_request ctx req req

/-- The Cacheable capability contract (`trait Cacheable` in the source),
passed as an explicit dictionary. -/
structure Cacheable (Payload : Type) (Target : Type) where
  from_bytes : Bytes → Except Error Target
  to_bytes : Payload → Except Error Bytes
  into_target : Payload → Target

/-- The wrapper that makes anything with Serde support automatically
implement Cacheable (`SerdeCacheable` in the source). -/
structure SerdeCacheable (T : Type) where
  inner : T
deriving DecidableEq

/-- An abstract Serde codec for a payload type `T`, standing for the
`rmp_serde::to_vec` / `rmp_serde::from_slice` pair used by `SerdeCacheable`;
`none` models a serialization or deserialization failure. -/
structure SerdeCodec (T : Type) where
  ser : T → Option Bytes
  de : Bytes → Option T

/-- The `Cacheable` implementation of `SerdeCacheable`: decode failures are
classified as `Decode`, encode failures as `Encode`, and `into_target`
unwraps the inner value. -/
def serdeCacheable {T : Type} (c : SerdeCodec T) : Cacheable (SerdeCacheable T) T where
  from_bytes bs :=
    match c.de bs with
    | .some t => .ok t
    | .none => .error .decode
  to_bytes x :=
    match c.ser x.inner with
    | .some bs => .ok bs
    | .none => .error .encode
  into_target x := x.inner

/-- Outcome of the envelope read-and-parse phase at the top of
`get_cached_with_callback2`: the decoded envelope if any, the resulting file
state at the entry locator, and the emitted events. -/
structure ReadOutcome (σ : Type) where
  cached : Option (DataWithCachePolicy σ)
  file : Option Bytes
  events : List Event

/-- The envelope read-and-parse phase of `get_cached_with_callback2`: a read
failure (`file = none`) is a miss; a successful read that fails to decode
logs a warning, removes the file and proceeds as a miss. -/
def readCache {σ : Type} (ctx : Ctx σ) (file : Option Bytes) : ReadOutcome σ :=
  match file with
  | .none => { cached := none, file := none, events := [] }
  | .some bytes =>
    match ctx.envDecode bytes with
    | .some d => { cached := some d, file := some bytes, events := [] }
    | .none => { cached := none, file := none, events := [.warning, .fileDelete] }

/-- Result of one whole fetch invocation: the value or error returned to the
caller, the final file state at the entry locator, and the event trace. -/
structure FetchResult (Target : Type) (E : Type) where
  result : Except (CachedClientError E) Target
  file : Option Bytes
  events : List Event

/-- Outcome of resolving one `CachedResponse`: the caller-facing result, the
envelope bytes written to the entry locator (`none` when nothing is
persisted) and the emitted tail of the event trace. -/
structure ResolveOutcome (Target : Type) (E : Type) where
  result : Except (CachedClientError E) Target
  written : Option Bytes
  events : List Event

/-- The outcome-resolution phase of `get_cached_with_callback2` (the `match
cached_response` block of the source): decode on a fresh hit, persist then
decode on not-modified, invoke the transform callback and persist (when a
storable policy is present) on modified-or-new. -/
def resolve {σ Payload Target E : Type}
    (ctx : Ctx σ) (P : Cacheable Payload Target)
    (response_callback : Response → Except E Payload)
    (resp : CachedResponse σ) : ResolveOutcome Target E :=
  match resp with
  | .freshCache data =>
    { result := (P.from_bytes data).mapError .client, written := none, events := [] }
  | .notModified dwcp =>
    match ctx.envEncode dwcp with
    | .none =>
      { result := .error (.client .encode), written := none, events := [] }
    | .some envBytes =>
      { result := (P.from_bytes dwcp.data).mapError .client,
        written := some envBytes, events := [.fileWrite envBytes] }
  | .modifiedOrNew res cache_policy =>
    let immutable := isImmutableResponse res.headers
    match response_callback res with
    | .error e =>
      { result := .error (.callback e), written := none, events := [.callbackInvoked] }
    | .ok data =>
      match cache_policy with
      | .some cp =>
        match P.to_bytes data with
        | .error e =>
          { result := .error (.client e), written := none, events := [.callbackInvoked] }
        | .ok dataBytes =>
          match ctx.envEncode { data := dataBytes, immutable := immutable, cache_policy := cp } with
          | .none =>
            { result := .error (.client .encode), written := none,
              events := [.callbackInvoked] }
          | .some envBytes =>
            { result := .ok (P.into_target data), written := some envBytes,
              events := [.callbackInvoked, .fileWrite envBytes] }
      | .none =>
        { result := .ok (P.into_target data), written := none, events := [.callbackInvoked] }

/-- The cached-request orchestrator (`CachedClient::get_cached_with_callback2`):
read and parse the envelope, run the request state machine, then resolve the
outcome. `write_atomic` is modelled as an always-successful atomic
replacement; the callback is a function `Response → Except E Payload`. -/
def get_cached_with_callback2 {σ Payload Target E : Type}
    (ctx : Ctx σ) (P : Cacheable Payload Target)
    (req : Request) (file : Option Bytes) (cache_control : CacheControl)
    (response_callback : Response → Except E Payload) : FetchResult Target E :=
  let rc := readCache ctx file
  let sc := send_cached ctx req cache_control rc.cached
  match sc.response with
  | .error e =>
    { result := .error (.client e), file := rc.file, events := rc.events ++ sc.events }
  | .ok r =>
    let ro := resolve ctx P response_callback r
    { result := ro.result,
      file := match ro.written with | .some bs => some bs | .none => rc.file,
      events := rc.events ++ sc.events ++ ro.events }

/-- The convenience operation over a Serde-serializable payload
(`CachedClient::get_cached_with_callback`): it wraps the callback result in
`SerdeCacheable` and delegates to `get_cached_with_callback2`. -/
def get_cached_with_callback {σ T E : Type}
    (ctx : Ctx σ) (c : SerdeCodec T)
    (req : Request) (file : Option Bytes) (cache_control : CacheControl)
    (response_callback : Response → Except E T) : FetchResult T E :=
  get_cached_with_callback2 ctx (serdeCacheable c) req file cache_control
    (fun resp =>
      match response_callback resp with
      | .ok payload => .ok { inner := payload }
      | .error e => .error e)

/-! Concrete instantiations used to exercise the model on closed inputs.
The policy state is a `Bool` (false for the initially cached policy, true for
a policy refreshed or constructed during the exchange). -/

/-- A concrete policy-engine instantiation over `Bool` state: nothing is
stale, `before_request` always reports fresh, `after_response` keeps the old
state, everything is storable. -/
def opsW : PolicyOps Bool where
  is_stale := fun _ _ => false
  before_request := fun _ _ _ => .fresh
  after_response := fun p _ _ _ => .notModified p
  is_storable := fun _ => true
  policyNew := fun _ _ => true

/-- A concrete envelope codec over `Bool` policy state: the first two bytes
encode the immutable flag and the policy state, the rest is the data. -/
def envCodecEncode (d : DataWithCachePolicy Bool) : Option Bytes :=
  some ((if d.immutable then 1 else 0) :: (if d.cache_policy then 1 else 0) :: d.data)

/-- Decoder matching `envCodecEncode`. -/
def envCodecDecode (bs : Bytes) : Option (DataWithCachePolicy Bool) :=
  match bs with
  | i :: p :: data => some { data := data, immutable := i == 1, cache_policy := p == 1 }
  | _ => none

/-- A concrete context: transport always answers 200 with empty headers. -/
def ctxW : Ctx Bool where
  ops := opsW
  execute := fun _ => some { status := 200, headers := [], body := [] }
  now := 0
  envEncode := envCodecEncode
  envDecode := envCodecDecode

/-- A concrete Cacheable payload: a number stored as a singleton byte list. -/
def natCacheable : Cacheable Nat Nat where
  from_bytes := fun bs =>
    match bs with
    | [n] => .ok n
    | _ => .error .decode
  to_bytes := fun n => .ok [n]
  into_target := fun n => n

/-- A concrete request with no headers. -/
def reqW : Request where
  method := "GET"
  url := "http://example/simple"
  headers := []

/-- A concrete transform callback that ignores the response. -/
def cbW : Response → Except Unit Nat := fun _ => .ok 9

/-- The envelope decoded from the bytes `[1, 0, 5]` by `envCodecDecode`. -/
def dwcpImmutable : DataWithCachePolicy Bool where
  data := [5]
  immutable := true
  cache_policy := false

/-- A concrete Serde codec for numbers: a singleton byte list. -/
def natSerdeCodec : SerdeCodec Nat where
  ser := fun n => some [n]
  de := fun bs =>
    match bs with
    | [n] => some n
    | _ => none

/-- A concrete 200 response. -/
def resOkW : Response where
  status := 200
  headers := []
  body := [7]

/-- A concrete 304 response whose cache-control carries `immutable`. -/
def res304W : Response where
  status := 304
  headers := [("cache-control", "immutable")]
  body := []

/-- A concrete 404 response. -/
def res404W : Response where
  status := 404
  headers := []
  body := []

/-- A policy-engine instantiation whose policies are never storable. -/
def opsNoStore : PolicyOps Bool where
  is_stale := fun _ _ => false
  before_request := fun _ _ _ => .fresh
  after_response := fun p _ _ _ => .modified p
  is_storable := fun _ => false
  policyNew := fun _ _ => true

/-- A context whose transport answers 200 and whose policies are never
storable. -/
def ctxNoStore : Ctx Bool where
  ops := opsNoStore
  execute := fun _ => some resOkW
  now := 0
  envEncode := envCodecEncode
  envDecode := envCodecDecode

/-- A policy-engine instantiation that always requests revalidation and
treats a 304 answer as not-modified with refreshed policy state `true`. -/
def opsReval : PolicyOps Bool where
  is_stale := fun _ _ => true
  before_request := fun _ _ _ => .stale [("if-none-match", "x")] true
  after_response := fun _ _ res _ =>
    if res.status == 304 then .notModified true else .modified true
  is_storable := fun _ => true
  policyNew := fun _ _ => false

/-- A context whose transport answers 304 with an `immutable` cache-control
header, driving the revalidation path. -/
def ctxReval : Ctx Bool where
  ops := opsReval
  execute := fun _ => some res304W
  now := 0
  envEncode := envCodecEncode
  envDecode := envCodecDecode

/-- A policy-engine instantiation reporting a stale entry whose cached
request does not match the current request. -/
def opsMismatch : PolicyOps Bool where
  is_stale := fun _ _ => true
  before_request := fun _ _ _ => .stale [("if-none-match", "x")] false
  after_response := fun p _ _ _ => .modified p
  is_storable := fun _ => true
  policyNew := fun _ _ => true

/-- A context driving the identity-mismatch fallback path. -/
def ctxMismatch : Ctx Bool where
  ops := opsMismatch
  execute := fun _ => some resOkW
  now := 0
  envEncode := envCodecEncode
  envDecode := envCodecDecode

/-- A context whose transport always answers 404. -/
def ctx404 : Ctx Bool where
  ops := opsW
  execute := fun _ => some res404W
  now := 0
  envEncode := envCodecEncode
  envDecode := envCodecDecode

/-- The stale, mutable envelope decoded from the bytes `[0, 0, 5]`. -/
def dwcpStale : DataWithCachePolicy Bool where
  data := [5]
  immutable := false
  cache_policy := false

/-! Shape lemmas about the event traces of the three phases. -/

/-- The unconditional fresh fetch emits exactly one network call, carrying
the original request. -/
theorem fresh_request_events {σ : Type} (ctx : Ctx σ) (req : Request)
    (converted_req : Request) :
    (fresh_request ctx req converted_req).events = [.networkCall req] := by
  unfold fresh_request
  cases ctx.execute req with
  | none => rfl
  | some res =>
    by_cases h : errorForStatus res.status <;> simp [h]

/-- The read phase emits only warnings and file deletions. -/
theorem readCache_events_shape {σ : Type} (ctx : Ctx σ) (file : Option Bytes) :
    ∀ e ∈ (readCache ctx file).events, e = Event.warning ∨ e = Event.fileDelete := by
  intro e he
  cases file with
  | none => simp [readCache] at he
  | some bytes =>
    cases hd : ctx.envDecode bytes with
    | none => simp [readCache, hd] at he; tauto
    | some d => simp [readCache, hd] at he

/-- The request state machine emits only network calls, warnings and
`before_request` consultations: in particular it never invokes the callback
and never writes a file. -/
theorem send_cached_events_shape {σ : Type} (ctx : Ctx σ) (req : Request)
    (cc : CacheControl) (cached : Option (DataWithCachePolicy σ)) :
    ∀ e ∈ (send_cached ctx req cc cached).events,
      (∃ r, e = Event.networkCall r) ∨ e = Event.warning ∨
        ∃ r, e = Event.beforeRequestConsulted r := by
  intro e he
  have hfr : ∀ cr, e ∈ (fresh_request ctx req cr).events →
      (∃ r, e = Event.networkCall r) ∨ e = Event.warning ∨
        ∃ r, e = Event.beforeRequestConsulted r := by
    intro cr h
    rw [fresh_request_events] at h
    simp at h
    exact Or.inl ⟨req, h⟩
  cases cached with
  | none => exact hfr req he
  | some d =>
    rcases Bool.eq_false_or_eq_true (d.immutable && !(ctx.ops.is_stale d.cache_policy ctx.now))
        with hfast | hfast
    · simp only [send_cached, hfast, if_true] at he
      simp at he
    · simp only [send_cached, hfast, Bool.false_eq_true, if_false] at he
      cases hbr : ctx.ops.before_request d.cache_policy (applyCacheControl cc req) ctx.now with
      | fresh =>
        simp only [hbr] at he
        simp at he
        exact Or.inr (Or.inr ⟨_, he⟩)
      | stale hs m =>
        simp only [hbr] at he
        cases m with
        | false =>
          simp only [Bool.false_eq_true, if_false, List.mem_cons] at he
          rcases he with h | h | h
          · exact Or.inr (Or.inr ⟨_, h⟩)
          · exact Or.inr (Or.inl h)
          · exact hfr _ h
        | true =>
          simp only [if_true] at he
          cases hex : ctx.execute (mergeHeaders req hs) with
          | none =>
            simp only [hex] at he
            simp at he
            rcases he with h | h
            · exact Or.inr (Or.inr ⟨_, h⟩)
            · exact Or.inl ⟨_, h⟩
          | some res =>
            simp only [hex] at he
            rcases Bool.eq_false_or_eq_true (errorForStatus res.status) with hst | hst
            · simp only [hst, if_true] at he
              simp at he
              rcases he with h | h
              · exact Or.inr (Or.inr ⟨_, h⟩)
              · exact Or.inl ⟨_, h⟩
            · simp only [hst, Bool.false_eq_true, if_false] at he
              cases har : ctx.ops.after_response d.cache_policy
                  (mergeHeaders (applyCacheControl cc req) hs) res ctx.now with
              | notModified p =>
                simp only [har] at he
                simp at he
                rcases he with h | h
                · exact Or.inr (Or.inr ⟨_, h⟩)
                · exact Or.inl ⟨_, h⟩
              | modified p =>
                simp only [har] at he
                simp at he
                rcases he with h | h
                · exact Or.inr (Or.inr ⟨_, h⟩)
                · exact Or.inl ⟨_, h⟩

/-- The resolution phase emits only callback invocations and file writes. -/
theorem resolve_events_shape {σ Payload Target E : Type}
    (ctx : Ctx σ) (P : Cacheable Payload Target)
    (cb : Response → Except E Payload) (resp : CachedResponse σ) :
    ∀ e ∈ (resolve ctx P cb resp).events,
      e = Event.callbackInvoked ∨ ∃ bs, e = Event.fileWrite bs := by
  intro e he
  cases resp with
  | freshCache data => simp [resolve] at he
  | notModified dwcp =>
    cases hd : ctx.envEncode dwcp with
    | none => simp [resolve, hd] at he
    | some envBytes =>
      simp [resolve, hd] at he
      exact Or.inr ⟨_, he⟩
  | modifiedOrNew res cp =>
    cases hcb : cb res with
    | error e2 => simp [resolve, hcb] at he; simp [he]
    | ok data =>
      cases cp with
      | none => simp [resolve, hcb] at he; simp [he]
      | some p =>
        cases htb : P.to_bytes data with
        | error e2 => simp [resolve, hcb, htb] at he; simp [he]
        | ok dataBytes =>
          simp only [resolve, hcb, htb] at he
          cases hd : ctx.envEncode (DataWithCachePolicy.mk dataBytes (isImmutableResponse res.headers) p) with
          | none => rw [hd] at he; simp at he; simp [he]
          | some envBytes =>
            rw [hd] at he
            simp at he
            rcases he with h | h
            · simp [h]
            · exact Or.inr ⟨_, h⟩

/-- Resolution of a non-storable modified-or-new outcome: the callback result
is returned (tagged as a callback error on failure) and nothing is written. -/
theorem resolve_modifiedOrNew_none {σ Payload Target E : Type}
    (ctx : Ctx σ) (P : Cacheable Payload Target)
    (cb : Response → Except E Payload) (res : Response) :
    resolve ctx P cb (CachedResponse.modifiedOrNew res none)
      = { result :=
            match cb res with
            | .ok data => .ok (P.into_target data)
            | .error e => .error (.callback e),
          written := none,
          events := [Event.callbackInvoked] } := by
  cases hcb : cb res <;> simp [resolve, hcb]

/-- Resolution of any modified-or-new outcome starts by invoking the callback;
whatever follows contains no further callback invocation and no network call. -/
theorem resolve_modifiedOrNew_events {σ Payload Target E : Type}
    (ctx : Ctx σ) (P : Cacheable Payload Target)
    (cb : Response → Except E Payload) (res : Response) (cp : Option σ) :
    ∃ t, (resolve ctx P cb (CachedResponse.modifiedOrNew res cp)).events
        = Event.callbackInvoked :: t ∧
      Event.callbackInvoked ∉ t ∧ (∀ r, Event.networkCall r ∉ t) ∧
      (∀ bs, Event.fileWrite bs ∈ t → cp ≠ none) := by
  cases hcb : cb res with
  | error e2 => exact ⟨[], by simp [resolve, hcb], by simp, by simp, by simp⟩
  | ok data =>
    cases cp with
    | none => exact ⟨[], by simp [resolve, hcb], by simp, by simp, by simp⟩
    | some p =>
      cases htb : P.to_bytes data with
      | error e2 => exact ⟨[], by simp [resolve, hcb, htb], by simp, by simp, by simp⟩
      | ok dataBytes =>
        cases hd : ctx.envEncode
            (DataWithCachePolicy.mk dataBytes (isImmutableResponse res.headers) p) with
        | none =>
          refine ⟨[], ?_, by simp, by simp, by simp⟩
          simp only [resolve, hcb, htb]
          rw [hd]
        | some envBytes =>
          refine ⟨[Event.fileWrite envBytes], ?_, by simp, by simp, by simp⟩
          simp only [resolve, hcb, htb]
          rw [hd]

/-- The event trace of one fetch is the read-phase trace, then the
state-machine trace, then the resolution trace. -/
theorem get2_events_eq {σ Payload Target E : Type}
    (ctx : Ctx σ) (P : Cacheable Payload Target)
    (req : Request) (file : Option Bytes) (cc : CacheControl)
    (cb : Response → Except E Payload) :
    (get_cached_with_callback2 ctx P req file cc cb).events
      = (readCache ctx file).events
          ++ (send_cached ctx req cc (readCache ctx file).cached).events
          ++ (match (send_cached ctx req cc (readCache ctx file).cached).response with
              | .ok r => (resolve ctx P cb r).events
              | .error _ => []) := by
  unfold get_cached_with_callback2
  cases hsc : (send_cached ctx req cc (readCache ctx file).cached).response with
  | error e => simp [hsc]
  | ok r => simp [hsc]

/-- Every event of the state-machine phase appears in the trace of the whole
fetch. -/
theorem send_events_sub_get2 {σ Payload Target E : Type}
    (ctx : Ctx σ) (P : Cacheable Payload Target)
    (req : Request) (file : Option Bytes) (cc : CacheControl)
    (cb : Response → Except E Payload) :
    ∀ e ∈ (send_cached ctx req cc (readCache ctx file).cached).events,
      e ∈ (get_cached_with_callback2 ctx P req file cc cb).events := by
  intro e he
  rw [get2_events_eq]
  simp only [List.append_assoc, List.mem_append]
  exact Or.inr (Or.inl he)

/-- Every network call of the whole fetch happens in the state-machine phase. -/
theorem get2_network_in_send {σ Payload Target E : Type}
    (ctx : Ctx σ) (P : Cacheable Payload Target)
    (req : Request) (file : Option Bytes) (cc : CacheControl)
    (cb : Response → Except E Payload) :
    ∀ r, Event.networkCall r ∈ (get_cached_with_callback2 ctx P req file cc cb).events →
      Event.networkCall r ∈ (send_cached ctx req cc (readCache ctx file).cached).events := by
  intro r hr
  rw [get2_events_eq] at hr
  simp only [List.append_assoc, List.mem_append] at hr
  rcases hr with h | h | h
  · rcases readCache_events_shape ctx file _ h with h2 | h2 <;> simp at h2
  · exact h
  · cases hsc : (send_cached ctx req cc (readCache ctx file).cached).response with
    | error e =>
      rw [hsc] at h
      simp at h
    | ok r2 =>
      rw [hsc] at h
      rcases resolve_events_shape ctx P cb r2 _ h with h2 | ⟨bs, h2⟩ <;> simp at h2

/-- C1: for every fetch where a cached envelope exists with `immutable = true`
and whose cache policy reports not-stale at the current time, the
orchestrator returns the decoded cached payload and issues zero HTTP network
calls (the event trace is empty, so in particular no network call, no
callback invocation and no write occur), leaving the file untouched. -/
theorem C1_immutable_fast_path {σ Payload Target E : Type}
    (ctx : Ctx σ) (P : Cacheable Payload Target) (req : Request)
    (bytes : Bytes) (cc : CacheControl) (cb : Response → Except E Payload)
    (d : DataWithCachePolicy σ)
    (hdec : ctx.envDecode bytes = some d)
    (himm : d.immutable = true)
    (hstale : ctx.ops.is_stale d.cache_policy ctx.now = false) :
    (get_cached_with_callback2 ctx P req (some bytes) cc cb).result
      = (P.from_bytes d.data).mapError CachedClientError.client ∧
    (get_cached_with_callback2 ctx P req (some bytes) cc cb).events = [] ∧
    (get_cached_with_callback2 ctx P req (some bytes) cc cb).file = some bytes := by
  simp only [get_cached_with_callback2, readCache, hdec, send_cached, himm, hstale,
    Bool.not_false, Bool.true_and, if_true, resolve, List.append_nil, List.nil_append]
  exact ⟨trivial, trivial, trivial⟩

/-- Witness for C1 at a concrete input: the envelope `[1, 0, 5]` decodes to
an immutable, never-stale entry with data `[5]`, and the fetch returns `5`
with an empty event trace. -/
theorem C1_immutable_fast_path_witness :
    ctxW.envDecode [1, 0, 5] = some dwcpImmutable ∧
    dwcpImmutable.immutable = true ∧
    ctxW.ops.is_stale dwcpImmutable.cache_policy ctxW.now = false ∧
    ((get_cached_with_callback2 ctxW natCacheable reqW (some [1, 0, 5]) .none cbW).result
        = (natCacheable.from_bytes dwcpImmutable.data).mapError CachedClientError.client ∧
      (get_cached_with_callback2 ctxW natCacheable reqW (some [1, 0, 5]) .none cbW).events = [] ∧
      (get_cached_with_callback2 ctxW natCacheable reqW (some [1, 0, 5]) .none cbW).file
        = some [1, 0, 5]) :=
  ⟨rfl, rfl, rfl,
    C1_immutable_fast_path ctxW natCacheable reqW [1, 0, 5] .none cbW dwcpImmutable rfl rfl rfl⟩

/-- Looking up a header name immediately after inserting it yields the
inserted value. -/
theorem headersGet_insert (hs : Headers) (n v : String) :
    headersGet (headersInsert hs n v) n = some v := by
  simp [headersGet, headersInsert, List.find?]

/-- Past the immutable fast path, the state machine always consults
`before_request` on the cache-control-adjusted converted request. -/
theorem send_cached_consulted_mem {σ : Type} (ctx : Ctx σ) (req : Request)
    (cc : CacheControl) (d : DataWithCachePolicy σ)
    (hfast : (d.immutable && !(ctx.ops.is_stale d.cache_policy ctx.now)) = false) :
    Event.beforeRequestConsulted (applyCacheControl cc req)
      ∈ (send_cached ctx req cc (some d)).events := by
  simp only [send_cached, hfast, Bool.false_eq_true, if_false]
  cases hbr : ctx.ops.before_request d.cache_policy (applyCacheControl cc req) ctx.now with
  | fresh => simp
  | stale hs m =>
    cases m with
    | false => simp
    | true =>
      cases hex : ctx.execute (mergeHeaders req hs) with
      | none => simp [hex]
      | some res =>
        rcases Bool.eq_false_or_eq_true (errorForStatus res.status) with hst | hst
        · simp [hex, hst]
        · simp only [hex, hst, Bool.false_eq_true, if_false]
          cases har : ctx.ops.after_response d.cache_policy
              (mergeHeaders (applyCacheControl cc req) hs) res ctx.now with
          | notModified p => simp [har]
          | modified p => simp [har]

/-- In the stale-and-matching path, the one request that reaches the network
is the original request with the conditional revalidation headers merged in
(and nothing else: in particular no injected cache-control header). -/
theorem send_cached_stale_network {σ : Type} (ctx : Ctx σ) (req : Request)
    (cc : CacheControl) (d : DataWithCachePolicy σ) (hs : Headers)
    (hfast : (d.immutable && !(ctx.ops.is_stale d.cache_policy ctx.now)) = false)
    (hbr : ctx.ops.before_request d.cache_policy (applyCacheControl cc req) ctx.now
        = BeforeRequest.stale hs true) :
    ∀ r, Event.networkCall r ∈ (send_cached ctx req cc (some d)).events →
      r = mergeHeaders req hs := by
  intro r hr
  simp only [send_cached, hfast, Bool.false_eq_true, if_false, hbr, if_true] at hr
  cases hex : ctx.execute (mergeHeaders req hs) with
  | none =>
    simp only [hex] at hr
    simp at hr
    exact hr
  | some res =>
    simp only [hex] at hr
    rcases Bool.eq_false_or_eq_true (errorForStatus res.status) with hst | hst
    · simp only [hst, if_true] at hr
      simp at hr
      exact hr
    · simp only [hst, Bool.false_eq_true, if_false] at hr
      cases har : ctx.ops.after_response d.cache_policy
          (mergeHeaders (applyCacheControl cc req) hs) res ctx.now with
      | notModified p =>
        simp only [har] at hr
        simp at hr
        exact hr
      | modified p =>
        simp only [har] at hr
        simp at hr
        exact hr

/-- The callback-invocation event occurs in a fetch trace exactly when the
state machine produced a modified-or-new outcome. -/
theorem get2_callback_mem_iff {σ Payload Target E : Type}
    (ctx : Ctx σ) (P : Cacheable Payload Target)
    (req : Request) (file : Option Bytes) (cc : CacheControl)
    (cb : Response → Except E Payload) :
    Event.callbackInvoked ∈ (get_cached_with_callback2 ctx P req file cc cb).events
      ↔ ∃ res cp, (send_cached ctx req cc (readCache ctx file).cached).response
          = Except.ok (CachedResponse.modifiedOrNew res cp) := by
  have hA : Event.callbackInvoked ∉ (readCache ctx file).events := by
    intro h
    rcases readCache_events_shape ctx file _ h with h2 | h2 <;> simp at h2
  have hB : Event.callbackInvoked
      ∉ (send_cached ctx req cc (readCache ctx file).cached).events := by
    intro h
    rcases send_cached_events_shape ctx req cc _ _ h with ⟨r, h2⟩ | h2 | ⟨r, h2⟩ <;> simp at h2
  rw [get2_events_eq]
  constructor
  · intro h
    simp only [List.append_assoc, List.mem_append] at h
    rcases h with h | h | h
    · exact absurd h hA
    · exact absurd h hB
    · cases hsc : (send_cached ctx req cc (readCache ctx file).cached).response with
      | error e =>
        rw [hsc] at h
        simp at h
      | ok r =>
        rw [hsc] at h
        cases r with
        | freshCache data => simp [resolve] at h
        | notModified dwcp =>
          cases hd : ctx.envEncode dwcp with
          | none => simp [resolve, hd] at h
          | some envBytes => simp [resolve, hd] at h
        | modifiedOrNew res cp => exact ⟨res, cp, rfl⟩
  · rintro ⟨res, cp, hsc⟩
    rw [hsc]
    obtain ⟨t, ht, _, _, _⟩ := resolve_modifiedOrNew_events ctx P cb res cp
    simp [ht]

/-- When the transport only ever answers error statuses, the state machine
either fails with a request error or serves from cache without touching the
network. -/
theorem send_cached_error_status_cases {σ : Type} (ctx : Ctx σ) (req : Request)
    (cc : CacheControl) (cached : Option (DataWithCachePolicy σ))
    (hexec : ∀ r, ∃ res, ctx.execute r = some res ∧ errorForStatus res.status = true) :
    (send_cached ctx req cc cached).response = Except.error ErrorKind.requestError ∨
    (∃ data, (send_cached ctx req cc cached).response
        = Except.ok (CachedResponse.freshCache data) ∧
      ∀ r, Event.networkCall r ∉ (send_cached ctx req cc cached).events) := by
  have hfr : ∀ cr, (fresh_request ctx req cr).response
      = Except.error ErrorKind.requestError := by
    intro cr
    obtain ⟨res, hex, hst⟩ := hexec req
    unfold fresh_request
    rw [hex]
    simp [hst]
  cases cached with
  | none =>
    left
    simp only [send_cached]
    exact hfr req
  | some d =>
    rcases Bool.eq_false_or_eq_true (d.immutable && !(ctx.ops.is_stale d.cache_policy ctx.now))
        with hfast | hfast
    · right
      refine ⟨d.data, by simp [send_cached, hfast], ?_⟩
      intro r h
      simp [send_cached, hfast] at h
    · cases hbr : ctx.ops.before_request d.cache_policy (applyCacheControl cc req) ctx.now with
      | fresh =>
        right
        refine ⟨d.data, by simp [send_cached, hfast, hbr], ?_⟩
        intro r h
        simp [send_cached, hfast, hbr] at h
      | stale hs m =>
        cases m with
        | true =>
          left
          obtain ⟨res, hex, hst⟩ := hexec (mergeHeaders req hs)
          simp [send_cached, hfast, hbr, hex, hst]
        | false =>
          left
          simp [send_cached, hfast, hbr, hfr]

/-- C4: a fetch whose envelope file reads successfully but fails to decode
logs a warning, deletes the file, and then proceeds exactly as on a cache
miss: the returned result and final file state equal those of the same fetch
with no envelope file, and the decode failure is never surfaced as an error.
A read failure is the `file = none` case, which is the miss by definition. -/
theorem C4_corrupt_cache_is_miss {σ Payload Target E : Type}
    (ctx : Ctx σ) (P : Cacheable Payload Target) (req : Request)
    (bytes : Bytes) (cc : CacheControl) (cb : Response → Except E Payload)
    (hdec : ctx.envDecode bytes = none) :
    (get_cached_with_callback2 ctx P req (some bytes) cc cb).result
      = (get_cached_with_callback2 ctx P req none cc cb).result ∧
    (get_cached_with_callback2 ctx P req (some bytes) cc cb).file
      = (get_cached_with_callback2 ctx P req none cc cb).file ∧
    (get_cached_with_callback2 ctx P req (some bytes) cc cb).events
      = Event.warning :: Event.fileDelete
          :: (get_cached_with_callback2 ctx P req none cc cb).events := by
  have hrc : readCache ctx (some bytes)
      = { cached := none, file := none, events := [Event.warning, Event.fileDelete] } := by
    simp [readCache, hdec]
  have hrc2 : readCache ctx (none : Option Bytes)
      = { cached := none, file := none, events := [] } := rfl
  unfold get_cached_with_callback2
  rw [hrc, hrc2]
  cases hsc : (send_cached ctx req cc none).response with
  | error e => simp [hsc]
  | ok r => simp [hsc]

/-- Witness for C4 at a concrete input: the byte string `[]` fails to decode,
and the fetch behaves exactly as the corresponding miss, with the warning and
deletion recorded first. -/
theorem C4_corrupt_cache_is_miss_witness :
    ctxW.envDecode [] = none ∧
    ((get_cached_with_callback2 ctxW natCacheable reqW (some []) .none cbW).result
        = (get_cached_with_callback2 ctxW natCacheable reqW none .none cbW).result ∧
      (get_cached_with_callback2 ctxW natCacheable reqW (some []) .none cbW).file
        = (get_cached_with_callback2 ctxW natCacheable reqW none .none cbW).file ∧
      (get_cached_with_callback2 ctxW natCacheable reqW (some []) .none cbW).events
        = Event.warning :: Event.fileDelete
            :: (get_cached_with_callback2 ctxW natCacheable reqW none .none cbW).events) :=
  ⟨rfl, C4_corrupt_cache_is_miss ctxW natCacheable reqW [] .none cbW rfl⟩

/-- C6: for the generic Serde wrapper, provided the underlying serialization
round-trips (which models the contract of the rmp-serde codec), decoding the
bytes produced by encoding a payload yields exactly the target value given by
`into_target`, namely the wrapped inner value. -/
theorem C6_serde_roundtrip {T : Type} (c : SerdeCodec T)
    (hrt : ∀ (t : T) (bs : Bytes), c.ser t = some bs → c.de bs = some t)
    (x : SerdeCacheable T) (bs : Bytes)
    (henc : (serdeCacheable c).to_bytes x = .ok bs) :
    (serdeCacheable c).from_bytes bs = .ok ((serdeCacheable c).into_target x) := by
  simp only [serdeCacheable] at henc ⊢
  cases hser : c.ser x.inner with
  | none =>
    rw [hser] at henc
    simp at henc
  | some bs2 =>
    rw [hser] at henc
    simp at henc
    subst henc
    rw [hrt x.inner bs2 hser]

/-- Witness for C6 at a concrete input: the number 5 encodes to `[5]` and
decodes back to 5, the target of the wrapped payload. -/
theorem C6_serde_roundtrip_witness :
    (serdeCacheable natSerdeCodec).to_bytes { inner := 5 } = .ok [5] ∧
    (serdeCacheable natSerdeCodec).from_bytes [5]
      = .ok ((serdeCacheable natSerdeCodec).into_target { inner := 5 }) :=
  ⟨rfl, C6_serde_roundtrip natSerdeCodec
    (fun t bs h => by cases h; rfl) { inner := 5 } [5] rfl⟩

/-- C10: the convenience operation over a Serde-serializable payload returns,
for every request, cache file state, cache-control mode and callback, exactly
the result of the generic operation applied to the same inputs with the
callback result wrapped in the SerdeCacheable adapter. -/
theorem C10_callback_refines_callback2 {σ T E : Type}
    (ctx : Ctx σ) (c : SerdeCodec T) (req : Request) (file : Option Bytes)
    (cc : CacheControl) (cb : Response → Except E T) :
    get_cached_with_callback ctx c req file cc cb
      = get_cached_with_callback2 ctx (serdeCacheable c) req file cc
          (fun resp => (cb resp).map (fun payload => { inner := payload })) := by
  unfold get_cached_with_callback
  congr 1
  funext resp
  cases cb resp <;> rfl

/-- C9: when `before_request` reports a stale verdict whose request-identity
match flag is false, the state machine falls back to the unconditional fresh
fetch (with the cache-control-adjusted converted request), a warning is
recorded, and the whole fetch surfaces the warning rather than an error. -/
theorem C9_identity_mismatch_falls_back {σ Payload Target E : Type}
    (ctx : Ctx σ) (P : Cacheable Payload Target) (req : Request)
    (bytes : Bytes) (cc : CacheControl) (cb : Response → Except E Payload)
    (d : DataWithCachePolicy σ) (hs : Headers)
    (hdec : ctx.envDecode bytes = some d)
    (hfast : (d.immutable && !(ctx.ops.is_stale d.cache_policy ctx.now)) = false)
    (hbr : ctx.ops.before_request d.cache_policy (applyCacheControl cc req) ctx.now
        = BeforeRequest.stale hs false) :
    (send_cached ctx req cc (some d)).response
        = (fresh_request ctx req (applyCacheControl cc req)).response ∧
    (send_cached ctx req cc (some d)).events
        = Event.beforeRequestConsulted (applyCacheControl cc req) :: Event.warning
            :: (fresh_request ctx req (applyCacheControl cc req)).events ∧
    Event.warning ∈ (get_cached_with_callback2 ctx P req (some bytes) cc cb).events := by
  have hsend : send_cached ctx req cc (some d)
      = { response := (fresh_request ctx req (applyCacheControl cc req)).response,
          events := Event.beforeRequestConsulted (applyCacheControl cc req) :: Event.warning
            :: (fresh_request ctx req (applyCacheControl cc req)).events } := by
    simp [send_cached, hfast, hbr]
  refine ⟨by rw [hsend], by rw [hsend], ?_⟩
  have hc : (readCache ctx (some bytes)).cached = some d := by simp [readCache, hdec]
  have hmem := send_events_sub_get2 ctx P req (some bytes) cc cb Event.warning
  rw [hc, hsend] at hmem
  exact hmem (by simp)

/-- Witness for C9 at a concrete input: a stale mismatching entry makes the
fetch fall back to the fresh request and record a warning. -/
theorem C9_identity_mismatch_falls_back_witness :
    ctxMismatch.envDecode [0, 0, 5] = some dwcpStale ∧
    ((send_cached ctxMismatch reqW .none (some dwcpStale)).response
        = (fresh_request ctxMismatch reqW (applyCacheControl .none reqW)).response ∧
      (send_cached ctxMismatch reqW .none (some dwcpStale)).events
        = Event.beforeRequestConsulted (applyCacheControl .none reqW) :: Event.warning
            :: (fresh_request ctxMismatch reqW (applyCacheControl .none reqW)).events ∧
      Event.warning ∈ (get_cached_with_callback2 ctxMismatch natCacheable reqW
          (some [0, 0, 5]) .none cbW).events) :=
  ⟨rfl, C9_identity_mismatch_falls_back ctxMismatch natCacheable reqW [0, 0, 5] .none cbW
    dwcpStale [("if-none-match", "x")] rfl rfl rfl⟩

/-- C2: a revalidation exchange classified as not-modified returns the target
decoded from the original cached bytes while persisting an envelope whose
policy is the refreshed one from `after_response` and whose immutable flag is
recomputed from the revalidation response headers; exactly one network call
occurs and the callback is never invoked. -/
theorem C2_not_modified_preserves_body {σ Payload Target E : Type}
    (ctx : Ctx σ) (P : Cacheable Payload Target) (req : Request)
    (bytes : Bytes) (cc : CacheControl) (cb : Response → Except E Payload)
    (d : DataWithCachePolicy σ) (hs : Headers) (res : Response) (newP : σ)
    (envBytes : Bytes)
    (hdec : ctx.envDecode bytes = some d)
    (hfast : (d.immutable && !(ctx.ops.is_stale d.cache_policy ctx.now)) = false)
    (hbr : ctx.ops.before_request d.cache_policy (applyCacheControl cc req) ctx.now
        = BeforeRequest.stale hs true)
    (hexec : ctx.execute (mergeHeaders req hs) = some res)
    (hst : errorForStatus res.status = false)
    (har : ctx.ops.after_response d.cache_policy
        (mergeHeaders (applyCacheControl cc req) hs) res ctx.now
      = AfterResponse.notModified newP)
    (henc : ctx.envEncode
        (DataWithCachePolicy.mk d.data (isImmutableResponse res.headers) newP)
      = some envBytes) :
    (get_cached_with_callback2 ctx P req (some bytes) cc cb).result
        = (P.from_bytes d.data).mapError CachedClientError.client ∧
    (get_cached_with_callback2 ctx P req (some bytes) cc cb).file = some envBytes ∧
    (get_cached_with_callback2 ctx P req (some bytes) cc cb).events
        = [Event.beforeRequestConsulted (applyCacheControl cc req),
           Event.networkCall (mergeHeaders req hs),
           Event.fileWrite envBytes] := by
  have hrc : readCache ctx (some bytes)
      = { cached := some d, file := some bytes, events := [] } := by
    simp [readCache, hdec]
  have hsend : send_cached ctx req cc (some d)
      = { response := Except.ok (CachedResponse.notModified
            (DataWithCachePolicy.mk d.data (isImmutableResponse res.headers) newP)),
          events := [Event.beforeRequestConsulted (applyCacheControl cc req),
            Event.networkCall (mergeHeaders req hs)] } := by
    simp [send_cached, hfast, hbr, hexec, hst, har]
  unfold get_cached_with_callback2
  rw [hrc]
  simp only [hsend, resolve]
  rw [henc]
  exact ⟨rfl, rfl, rfl⟩

/-- Witness for C2 at a concrete input: a stale entry revalidated by a 304
response carrying `cache-control: immutable` returns the original payload and
persists the envelope `[1, 1, 5]` (immutable flag set from the new response,
refreshed policy state, original data `[5]`). -/
theorem C2_not_modified_preserves_body_witness :
    ctxReval.envDecode [0, 0, 5] = some dwcpStale ∧
    ((get_cached_with_callback2 ctxReval natCacheable reqW (some [0, 0, 5])
          .none cbW).result
        = (natCacheable.from_bytes dwcpStale.data).mapError CachedClientError.client ∧
      (get_cached_with_callback2 ctxReval natCacheable reqW (some [0, 0, 5])
          .none cbW).file = some [1, 1, 5] ∧
      (get_cached_with_callback2 ctxReval natCacheable reqW (some [0, 0, 5])
          .none cbW).events
        = [Event.beforeRequestConsulted (applyCacheControl .none reqW),
           Event.networkCall (mergeHeaders reqW [("if-none-match", "x")]),
           Event.fileWrite [1, 1, 5]]) :=
  ⟨rfl, C2_not_modified_preserves_body ctxReval natCacheable reqW [0, 0, 5] .none cbW
    dwcpStale [("if-none-match", "x")] res304W true [1, 1, 5]
    rfl rfl rfl rfl rfl rfl (by rfl)⟩

/-- C3: when the outcome is modified-or-new with no storable policy, the
transform callback is invoked, its target value (or callback error) is
returned, and nothing is ever written to the entry locator: the file state
after the fetch equals the file state left by the read phase. -/
theorem C3_non_storable_persists_nothing {σ Payload Target E : Type}
    (ctx : Ctx σ) (P : Cacheable Payload Target) (req : Request)
    (file : Option Bytes) (cc : CacheControl) (cb : Response → Except E Payload)
    (res : Response)
    (hsc : (send_cached ctx req cc (readCache ctx file).cached).response
        = Except.ok (CachedResponse.modifiedOrNew res none)) :
    (get_cached_with_callback2 ctx P req file cc cb).file
        = (readCache ctx file).file ∧
    (get_cached_with_callback2 ctx P req file cc cb).result
        = (match cb res with
            | .ok data => .ok (P.into_target data)
            | .error e => .error (.callback e)) ∧
    Event.callbackInvoked ∈ (get_cached_with_callback2 ctx P req file cc cb).events ∧
    ∀ bs, Event.fileWrite bs ∉ (get_cached_with_callback2 ctx P req file cc cb).events := by
  have hget : get_cached_with_callback2 ctx P req file cc cb
      = { result :=
            match cb res with
            | .ok data => .ok (P.into_target data)
            | .error e => .error (.callback e),
          file := (readCache ctx file).file,
          events := (readCache ctx file).events
            ++ (send_cached ctx req cc (readCache ctx file).cached).events
            ++ [Event.callbackInvoked] } := by
    unfold get_cached_with_callback2
    simp only [hsc, resolve_modifiedOrNew_none]
  rw [hget]
  refine ⟨rfl, rfl, by simp, ?_⟩
  intro bs hbs
  simp only [List.append_assoc, List.mem_append] at hbs
  rcases hbs with h | h | h
  · rcases readCache_events_shape ctx file _ h with h2 | h2 <;> simp at h2
  · rcases send_cached_events_shape ctx req cc _ _ h with ⟨r, h2⟩ | h2 | ⟨r, h2⟩ <;> simp at h2
  · simp at h

/-- Witness for C3 at a concrete input: a miss against a transport answering
200 under a never-storable policy invokes the callback, returns its value,
and leaves the (absent) file untouched. -/
theorem C3_non_storable_persists_nothing_witness :
    (send_cached ctxNoStore reqW .none (readCache ctxNoStore none).cached).response
        = Except.ok (CachedResponse.modifiedOrNew resOkW none) ∧
    ((get_cached_with_callback2 ctxNoStore natCacheable reqW none .none cbW).file
        = (readCache ctxNoStore none).file ∧
      (get_cached_with_callback2 ctxNoStore natCacheable reqW none .none cbW).result
        = .ok 9 ∧
      Event.callbackInvoked
        ∈ (get_cached_with_callback2 ctxNoStore natCacheable reqW none .none cbW).events ∧
      Event.fileWrite [9]
        ∉ (get_cached_with_callback2 ctxNoStore natCacheable reqW none .none cbW).events) :=
  ⟨rfl,
    (C3_non_storable_persists_nothing ctxNoStore natCacheable reqW none .none cbW
        resOkW rfl).1,
    (C3_non_storable_persists_nothing ctxNoStore natCacheable reqW none .none cbW
        resOkW rfl).2.1,
    (C3_non_storable_persists_nothing ctxNoStore natCacheable reqW none .none cbW
        resOkW rfl).2.2.1,
    (C3_non_storable_persists_nothing ctxNoStore natCacheable reqW none .none cbW
        resOkW rfl).2.2.2 [9]⟩

/-- C5: in every fetch, the transform callback is invoked exactly when the
outcome is modified-or-new; and whenever it is invoked, it is invoked once,
strictly after every network call and strictly before anything is persisted
(the trace splits around a single callback event, with no file write before
it and no network call after it). -/
theorem C5_callback_single_shot {σ Payload Target E : Type}
    (ctx : Ctx σ) (P : Cacheable Payload Target)
    (req : Request) (file : Option Bytes) (cc : CacheControl)
    (cb : Response → Except E Payload) :
    (Event.callbackInvoked ∈ (get_cached_with_callback2 ctx P req file cc cb).events
      ↔ ∃ res cp, (send_cached ctx req cc (readCache ctx file).cached).response
          = Except.ok (CachedResponse.modifiedOrNew res cp)) ∧
    (Event.callbackInvoked ∈ (get_cached_with_callback2 ctx P req file cc cb).events →
      ∃ pre post, (get_cached_with_callback2 ctx P req file cc cb).events
          = pre ++ Event.callbackInvoked :: post ∧
        Event.callbackInvoked ∉ pre ∧ Event.callbackInvoked ∉ post ∧
        (∀ bs, Event.fileWrite bs ∉ pre) ∧ (∀ r, Event.networkCall r ∉ post)) := by
  refine ⟨get2_callback_mem_iff ctx P req file cc cb, ?_⟩
  intro hmem
  obtain ⟨res, cp, hsc⟩ := (get2_callback_mem_iff ctx P req file cc cb).mp hmem
  obtain ⟨t, ht, hnc, hnn, _⟩ := resolve_modifiedOrNew_events ctx P cb res cp
  refine ⟨(readCache ctx file).events
      ++ (send_cached ctx req cc (readCache ctx file).cached).events, t, ?_, ?_, hnc, ?_, hnn⟩
  · rw [get2_events_eq, hsc]
    simp [ht]
  · intro h
    simp only [List.mem_append] at h
    rcases h with h | h
    · rcases readCache_events_shape ctx file _ h with h2 | h2 <;> simp at h2
    · rcases send_cached_events_shape ctx req cc _ _ h with ⟨r, h2⟩ | h2 | ⟨r, h2⟩ <;>
        simp at h2
  · intro bs h
    simp only [List.mem_append] at h
    rcases h with h | h
    · rcases readCache_events_shape ctx file _ h with h2 | h2 <;> simp at h2
    · rcases send_cached_events_shape ctx req cc _ _ h with ⟨r, h2⟩ | h2 | ⟨r, h2⟩ <;>
        simp at h2

/-- Witness for C5 at a concrete input: a miss fetch against the default
context invokes the callback once, after the network call and before the
write. -/
theorem C5_callback_single_shot_witness :
    Event.callbackInvoked
        ∈ (get_cached_with_callback2 ctxW natCacheable reqW none .none cbW).events ∧
    (∃ pre post, (get_cached_with_callback2 ctxW natCacheable reqW none .none cbW).events
        = pre ++ Event.callbackInvoked :: post ∧
      Event.callbackInvoked ∉ pre ∧ Event.callbackInvoked ∉ post ∧
      (∀ bs, Event.fileWrite bs ∉ pre) ∧ (∀ r, Event.networkCall r ∉ post)) :=
  have hmem : Event.callbackInvoked
      ∈ (get_cached_with_callback2 ctxW natCacheable reqW none .none cbW).events := by
    have h : (get_cached_with_callback2 ctxW natCacheable reqW none .none cbW).events
        = [Event.networkCall reqW, Event.callbackInvoked, Event.fileWrite [0, 1, 9]] := rfl
    rw [h]
    simp
  ⟨hmem, (C5_callback_single_shot ctxW natCacheable reqW none .none cbW).2 hmem⟩

/-- C7 counterexample: a fetch in `mustRevalidate` mode with no cached
envelope sends the outbound request unchanged, with no cache-control header
at all, refuting the claim that the header is attached regardless of cache
state. -/
theorem C7_counterexample :
    Event.networkCall reqW ∈ (get_cached_with_callback2 ctxW natCacheable reqW none
        CacheControl.mustRevalidate cbW).events ∧
    headersGet reqW.headers "cache-control" = none := by
  refine ⟨?_, rfl⟩
  have h : (get_cached_with_callback2 ctxW natCacheable reqW none
      CacheControl.mustRevalidate cbW).events
      = [Event.networkCall reqW, Event.callbackInvoked, Event.fileWrite [0, 1, 9]] := rfl
  rw [h]
  simp

/-- C7 (amended): in `mustRevalidate` mode, the `max-age=0, must-revalidate`
header is attached only when a decoded cached envelope is present and the
immutable fast path does not return early, and then only to the converted
request consulted by `before_request`; on a cache miss every request reaching
the network is the original one, and in the stale-and-matching path the wire
request is the original request plus the revalidation headers. -/
theorem C7_force_revalidate_amended {σ Payload Target E : Type}
    (ctx : Ctx σ) (P : Cacheable Payload Target) (req : Request)
    (cb : Response → Except E Payload) :
    (∀ r, Event.networkCall r ∈ (get_cached_with_callback2 ctx P req none
          CacheControl.mustRevalidate cb).events → r = req) ∧
    (∀ bytes d, ctx.envDecode bytes = some d →
      (d.immutable && !(ctx.ops.is_stale d.cache_policy ctx.now)) = false →
      Event.beforeRequestConsulted (applyCacheControl CacheControl.mustRevalidate req)
          ∈ (get_cached_with_callback2 ctx P req (some bytes)
              CacheControl.mustRevalidate cb).events) ∧
    headersGet (applyCacheControl CacheControl.mustRevalidate req).headers "cache-control"
        = some "max-age=0, must-revalidate" ∧
    (∀ bytes d hs, ctx.envDecode bytes = some d →
      (d.immutable && !(ctx.ops.is_stale d.cache_policy ctx.now)) = false →
      ctx.ops.before_request d.cache_policy
          (applyCacheControl CacheControl.mustRevalidate req) ctx.now
        = BeforeRequest.stale hs true →
      ∀ r, Event.networkCall r ∈ (get_cached_with_callback2 ctx P req (some bytes)
            CacheControl.mustRevalidate cb).events → r = mergeHeaders req hs) := by
  refine ⟨?_, ?_, ?_, ?_⟩
  · intro r hr
    have h2 := get2_network_in_send ctx P req none CacheControl.mustRevalidate cb r hr
    have hrc : (readCache ctx (none : Option Bytes)).cached = none := rfl
    rw [hrc] at h2
    simp only [send_cached] at h2
    rw [fresh_request_events] at h2
    simp at h2
    exact h2
  · intro bytes d hdec hfast
    have hrc : (readCache ctx (some bytes)).cached = some d := by
      simp [readCache, hdec]
    have hsub := send_events_sub_get2 ctx P req (some bytes) CacheControl.mustRevalidate cb
    rw [hrc] at hsub
    exact hsub _ (send_cached_consulted_mem ctx req CacheControl.mustRevalidate d hfast)
  · simpa [applyCacheControl] using
      headersGet_insert req.headers "cache-control" "max-age=0, must-revalidate"
  · intro bytes d hs hdec hfast hbr r hr
    have hrc : (readCache ctx (some bytes)).cached = some d := by
      simp [readCache, hdec]
    have h2 := get2_network_in_send ctx P req (some bytes) CacheControl.mustRevalidate cb r hr
    rw [hrc] at h2
    exact send_cached_stale_network ctx req CacheControl.mustRevalidate d hs hfast hbr r h2

/-- Witness for the amended C7 at a concrete input: with a stale mutable
envelope present, the consultation request carries the injected header, and
the header value is looked up successfully. -/
theorem C7_force_revalidate_amended_witness :
    ctxReval.envDecode [0, 0, 5] = some dwcpStale ∧
    (dwcpStale.immutable && !(ctxReval.ops.is_stale dwcpStale.cache_policy ctxReval.now))
        = false ∧
    Event.beforeRequestConsulted (applyCacheControl CacheControl.mustRevalidate reqW)
        ∈ (get_cached_with_callback2 ctxReval natCacheable reqW (some [0, 0, 5])
            CacheControl.mustRevalidate cbW).events ∧
    headersGet (applyCacheControl CacheControl.mustRevalidate reqW).headers "cache-control"
        = some "max-age=0, must-revalidate" :=
  ⟨rfl, rfl,
    (C7_force_revalidate_amended ctxReval natCacheable reqW cbW).2.1 [0, 0, 5]
      dwcpStale rfl rfl,
    (C7_force_revalidate_amended ctxReval natCacheable reqW cbW).2.2.1⟩

/-- C8: when every transport answer carries a non-success status, the fetch
never invokes the transform callback, and if any request reached the network
the whole fetch fails with the request error of the engine domain (an error
status is neither treated as a miss nor passed to the callback). -/
theorem C8_error_status_surfaced {σ Payload Target E : Type}
    (ctx : Ctx σ) (P : Cacheable Payload Target)
    (req : Request) (file : Option Bytes) (cc : CacheControl)
    (cb : Response → Except E Payload)
    (hexec : ∀ r, ∃ res, ctx.execute r = some res ∧ errorForStatus res.status = true) :
    Event.callbackInvoked ∉ (get_cached_with_callback2 ctx P req file cc cb).events ∧
    ((∃ r, Event.networkCall r ∈ (get_cached_with_callback2 ctx P req file cc cb).events) →
      (get_cached_with_callback2 ctx P req file cc cb).result
        = Except.error (CachedClientError.client ErrorKind.requestError)) := by
  rcases send_cached_error_status_cases ctx req cc (readCache ctx file).cached hexec
      with hsc | ⟨data, hsc, hnn⟩
  · constructor
    · intro h
      obtain ⟨res, cp, h2⟩ := (get2_callback_mem_iff ctx P req file cc cb).mp h
      rw [hsc] at h2
      simp at h2
    · intro _
      unfold get_cached_with_callback2
      simp [hsc]
  · constructor
    · intro h
      obtain ⟨res, cp, h2⟩ := (get2_callback_mem_iff ctx P req file cc cb).mp h
      rw [hsc] at h2
      simp at h2
    · rintro ⟨r, hr⟩
      exact absurd (get2_network_in_send ctx P req file cc cb r hr) (hnn r)

/-- Witness for C8 at a concrete input: against a transport always answering
404, a miss fetch makes one network call, fails with the request error, and
never invokes the callback. -/
theorem C8_error_status_surfaced_witness :
    Event.callbackInvoked
        ∉ (get_cached_with_callback2 ctx404 natCacheable reqW none .none cbW).events ∧
    (get_cached_with_callback2 ctx404 natCacheable reqW none .none cbW).result
        = Except.error (CachedClientError.client ErrorKind.requestError) :=
  have hexec : ∀ r, ∃ res, ctx404.execute r = some res ∧ errorForStatus res.status = true :=
    fun _ => ⟨res404W, rfl, rfl⟩
  ⟨(C8_error_status_surfaced ctx404 natCacheable reqW none .none cbW hexec).1,
    (C8_error_status_surfaced ctx404 natCacheable reqW none .none cbW hexec).2
      ⟨reqW, by
        have h : (get_cached_with_callback2 ctx404 natCacheable reqW none .none cbW).events
            = [Event.networkCall reqW] := rfl
        rw [h]
        simp⟩⟩

end Puffin
